import Mathlib

set_option maxRecDepth 8000
set_option exponentiation.threshold 2000

/-!
Verification development for the developer / project / assignment model
implemented in `src/main.py`.

The Python classes are embedded as Lean structures, and the mutating
methods as pure functions that return the updated object (together with
the raised exception, when the method can raise).  Python object
identity, which is what `in` / `list.remove` compare for `Developer` and
`Project` instances (neither class defines `__eq__`), is modelled by an
explicit numeric identity field: `Developer._id` mirrors the source's
per-class counter, and `Project.pid` stands for the object identity of a
`Project` instance.  A developer's `projects` list stores the immutable
part of a project (identity and title) as a `ProjectRef`; a project's
roster stores developer identities.

`Assignment.calculate_status` renders `str(100 * len(done) / len(tasks))`
where `/` is CPython's true division of ints producing an IEEE-754
binary64 value, and `str` produces the shortest decimal string that
round-trips.  This is modelled exactly below (`pyDivRepr`): the quotient
is rounded to the nearest binary64 value (ties to even, with the
subnormal range handled), and the shortest round-tripping decimal is
found and formatted following CPython's fixed/scientific rule.
Nonnegative rationals are carried as unreduced numerator/denominator
pairs (`PRat`) so that every step reduces in the kernel.
-/

/-- A nonnegative rational as an unreduced numerator/denominator pair;
the denominator is positive everywhere these are built. -/
abbrev PRat := ℕ × ℕ

/-- `a ≤ b` on fraction pairs, by cross multiplication. -/
def pLe (a b : PRat) : Bool := Nat.ble (a.1 * b.2) (b.1 * a.2)

/-- `a = b` on fraction pairs, by cross multiplication. -/
def pEq (a b : PRat) : Bool := a.1 * b.2 == b.1 * a.2

/-- Product of fraction pairs. -/
def pMul (a b : PRat) : PRat := (a.1 * b.1, a.2 * b.2)

/-- Fuel-driven floor logarithm on naturals (kernel-reducible). -/
def natLogAux (b : ℕ) : ℕ → ℕ → ℕ
  | 0, _ => 0
  | f + 1, n => if n < b ∨ b ≤ 1 then 0 else natLogAux b f (n / b) + 1

/-- `⌊log_b n⌋` for `b ≥ 2`, `n ≥ 1` (0 on degenerate input). -/
def natLog (b n : ℕ) : ℕ := natLogAux b n n

/-- `base ^ g` as a fraction pair, for an integer exponent `g`. -/
def qp (b : ℕ) (g : ℤ) : PRat :=
  if 0 ≤ g then (b ^ g.toNat, 1) else (1, b ^ (-g).toNat)

/-- `⌊log_b q⌋` for a positive fraction pair `q` and base `b ≥ 2`. -/
def flog (b : ℕ) (q : PRat) : ℤ :=
  let g : ℤ := (natLog b q.1 : ℤ) - (natLog b q.2 : ℤ)
  if pLe (qp b g) q then g else g - 1

/-- Round a nonnegative fraction pair to the nearest natural, ties to even. -/
def rnd (q : PRat) : ℕ :=
  let n := q.1
  let d := q.2
  if 2 * (n % d) < d then n / d
  else if d < 2 * (n % d) then n / d + 1
  else if (n / d) % 2 = 0 then n / d else n / d + 1

/-- Exact value of the IEEE-754 binary64 nearest to a nonnegative
rational (round to nearest, ties to even; subnormals included; values
at or above `2^1024` overflow and are detected by the caller). -/
def roundToDouble (q : PRat) : PRat :=
  if q.1 = 0 then (0, 1)
  else
    let L := flog 2 q
    let e : ℤ := if L < -1022 then -1074 else L - 52
    pMul (rnd (pMul q (qp 2 (-e))), 1) (qp 2 e)

/-- Round a positive fraction pair to `nd` significant decimal digits
(nearest, ties to even).  Returns the digit block `D` (with exactly `nd`
digits) and the decimal exponent `t` of the leading digit, so the value
represented is `D * 10^(t - nd + 1)`. -/
def sigRound (q : PRat) (nd : ℕ) : ℕ × ℤ :=
  let t := flog 10 q
  let D := rnd (pMul q (qp 10 ((nd : ℤ) - 1 - t)))
  if D = 10 ^ nd then (10 ^ (nd - 1), t + 1) else (D, t)

/-- Fraction-pair value of the decimal `D * 10^(t - digits(D) + 1)`. -/
def decodeDec (D : ℕ) (t : ℤ) : PRat :=
  pMul (D, 1) (qp 10 (t - (natLog 10 D : ℤ)))

/-- Shortest round-tripping decimal for the binary64 value `v`:
try 1, 2, … significant digits, keeping the first rounding of `v`
that parses back to `v`; 17 digits always round-trip. -/
def srLoop (v : PRat) : ℕ → ℕ → ℕ × ℤ
  | _, 0 => sigRound v 17
  | nd, f + 1 =>
    let p := sigRound v nd
    if pEq (roundToDouble (decodeDec p.1 p.2)) v then p else srLoop v (nd + 1) f

/-- Decimal digit characters of a natural number, most significant first. -/
def natChars (n : ℕ) : List Char := Nat.toDigits 10 n

/-- Pad a digit-character list to width two with a leading zero. -/
def pad2c (l : List Char) : List Char := if l.length < 2 then '0' :: l else l

/-- CPython fixed-notation rendering of digits `ds` with leading-digit
decimal exponent `t` (used when `-4 ≤ t < 16`). -/
def formatFixed (ds : List Char) (t : ℤ) : String :=
  if (ds.length : ℤ) - 1 ≤ t then
    String.mk (ds ++ List.replicate (t - ((ds.length : ℤ) - 1)).toNat '0' ++ ['.', '0'])
  else if 0 ≤ t then
    String.mk (ds.take (t + 1).toNat ++ ['.'] ++ ds.drop (t + 1).toNat)
  else
    String.mk (['0', '.'] ++ List.replicate ((-t).toNat - 1) '0' ++ ds)

/-- CPython scientific-notation rendering of digits `ds` with exponent `t`. -/
def formatSci (ds : List Char) (t : ℤ) : String :=
  String.mk (ds.take 1
    ++ (if ds.length ≤ 1 then [] else '.' :: ds.drop 1)
    ++ ['e', if t < 0 then '-' else '+']
    ++ pad2c (natChars t.natAbs))

/-- `str(v)` for a nonnegative binary64 value `v` (given as its exact
rational value): shortest round-tripping digits, fixed notation when the
point position is in `(-4, 16]`, scientific otherwise. -/
def pyFloatRepr (v : PRat) : String :=
  if v.1 = 0 then "0.0"
  else
    let p := srLoop v 1 17
    let ds := natChars p.1
    if -4 ≤ p.2 ∧ p.2 < 16 then formatFixed ds p.2 else formatSci ds p.2

/-- `str(a / b)` for Python ints `a`, `b`: correctly rounded binary64
division then shortest round-trip decimal rendering. -/
def pyDivRepr (a b : ℕ) : String :=
  if b = 0 then "ZeroDivisionError: division by zero"
  else
    let v := roundToDouble (a, b)
    if pLe (qp 2 1024) v then "inf" else pyFloatRepr v


/-!
Date handling.  `Assignment.get_tasks_to_date` calls
`datetime.strptime(s, "%m/%d/%Y")` on its argument and on every key of
`received_tasks`.  `strptime` matches the whole string against
`(1[0-2]|0[1-9]|[1-9]) "/" (3[01]|[12]\d|0[1-9]|[1-9]) "/" \d\d\d\d`
and then builds a `datetime`, which additionally requires `year ≥ 1` and
the day to exist in the given month (leap years included); any failure
raises `ValueError`.  Comparison of the resulting `datetime`s is
lexicographic on (year, month, day) — the time-of-day fields coincide.
-/

/-- A parsed `%m/%d/%Y` date. -/
structure PyDate where
  year : ℕ
  month : ℕ
  day : ℕ
  deriving DecidableEq

/-- Split a character list at every `'/'` (separators not kept). -/
def splitSlashAux : List Char → List Char → List (List Char)
  | [], acc => [acc.reverse]
  | c :: l, acc =>
    if c = '/' then acc.reverse :: splitSlashAux l [] else splitSlashAux l (c :: acc)

/-- Value of a decimal digit character. -/
def digitVal (c : Char) : Option ℕ :=
  if '0' ≤ c ∧ c ≤ '9' then some (c.toNat - '0'.toNat) else none

/-- Accumulate decimal digits into a natural number. -/
def digitsToNatAux : List Char → ℕ → Option ℕ
  | [], acc => some acc
  | c :: l, acc =>
    match digitVal c with
    | some v => digitsToNatAux l (10 * acc + v)
    | none => none

/-- Parse a nonempty all-digit character list. -/
def parseNatDigits (l : List Char) : Option ℕ :=
  if l = [] then none else digitsToNatAux l 0

/-- `%m` field: one or two digits, value 1–12. -/
def parseMonth (l : List Char) : Option ℕ :=
  match parseNatDigits l with
  | some n => if (l.length = 1 ∨ l.length = 2) ∧ 1 ≤ n ∧ n ≤ 12 then some n else none
  | none => none

/-- `%d` field: one or two digits, value 1–31. -/
def parseDay (l : List Char) : Option ℕ :=
  match parseNatDigits l with
  | some n => if (l.length = 1 ∨ l.length = 2) ∧ 1 ≤ n ∧ n ≤ 31 then some n else none
  | none => none

/-- `%Y` field: exactly four digits; `datetime` requires `year ≥ 1`. -/
def parseYear (l : List Char) : Option ℕ :=
  match parseNatDigits l with
  | some n => if l.length = 4 ∧ 1 ≤ n then some n else none
  | none => none

/-- Gregorian leap-year rule used by `datetime`. -/
def isLeap (y : ℕ) : Bool := y % 4 == 0 && (y % 100 != 0 || y % 400 == 0)

/-- Number of days of month `m` in year `y`. -/
def daysInMonth (m y : ℕ) : ℕ :=
  if m = 2 then (if isLeap y then 29 else 28)
  else if m = 4 ∨ m = 6 ∨ m = 9 ∨ m = 11 then 30
  else 31

/-- `datetime.strptime(s, "%m/%d/%Y")`: `some` date on success, `none`
when the source would raise `ValueError`. -/
def parseDate (s : String) : Option PyDate :=
  match splitSlashAux s.data [] with
  | [ms, dcs, ys] =>
    match parseMonth ms, parseDay dcs, parseYear ys with
    | some m, some d, some y => if d ≤ daysInMonth m y then some ⟨y, m, d⟩ else none
    | _, _, _ => none
  | _ => none

/-- Strict `datetime` comparison: lexicographic on (year, month, day). -/
def dateLt (a b : PyDate) : Bool :=
  decide (a.year < b.year ∨ (a.year = b.year ∧
    (a.month < b.month ∨ (a.month = b.month ∧ a.day < b.day))))

/-!  The data model. -/

/-- A task record stored in `Assignment.received_tasks`: a free-form
dictionary carrying at least the completion flag `is_done` (the only key
the source reads); `info` stands for the rest of the record. -/
structure PyTask where
  is_done : Bool
  info : String
  deriving DecidableEq

/-- The immutable part of a `Project` as stored in a developer's
`projects` list: the object identity and the title. -/
structure ProjectRef where
  pid : ℕ
  title : String
  deriving DecidableEq

/-- `class Assignment` of `src/main.py`.  `received_tasks` is the
insertion-ordered date-string-keyed dictionary. -/
structure Assignment where
  description : String
  received_tasks : List (String × PyTask)
  status : String
  is_done : Bool
  deriving DecidableEq

/-- `Assignment.__init__`. -/
def Assignment.new (description : String) : Assignment :=
  { description := description, received_tasks := [], status := "", is_done := false }

/-- `class Developer` of `src/main.py`. -/
structure Developer where
  _id : ℕ
  full_name : String
  address : String
  email : String
  phone_number : String
  position : String
  salary : String
  projects : List ProjectRef
  assignments : List Assignment
  deriving DecidableEq

/-- `class Project` of `src/main.py`.  `pid` models object identity,
`developers` holds the identities of the developers in the roster. -/
structure Project where
  pid : ℕ
  title : String
  start_date : String
  tasks_list : List PyTask
  developers : List ℕ
  limit : ℕ
  deriving DecidableEq

/-- The reference to a project a developer keeps in `projects`. -/
def Project.ref (p : Project) : ProjectRef := ⟨p.pid, p.title⟩

/-- `Developer.get_assigned_projects`. -/
def Developer.get_assigned_projects (d : Developer) : List String :=
  d.projects.map (fun q => q.title)

/-- `Developer.assign`: raising `ValueError` is modelled by the second
component; the first component is the developer after the call (the
raise happens before any mutation).  The `print` notification is not
modelled. -/
def Developer.assign (d : Developer) (p : Project) : Developer × Option String :=
  if d.projects.any (fun q => q.pid == p.pid) then
    (d, some ("Project " ++ p.title ++ " already exists"))
  else
    ({ d with projects := d.projects ++ [p.ref] }, none)

/-- `list.remove` on a developer's project list: drop the first entry
with the given identity (callers guard membership). -/
def removeRef : List ProjectRef → ℕ → List ProjectRef
  | [], _ => []
  | q :: l, x => if q.pid = x then l else q :: removeRef l x

/-- `Developer.cancel_appointment`: removes the project when present,
silently does nothing otherwise. -/
def Developer.cancel_appointment (d : Developer) (p : Project) : Developer :=
  if d.projects.any (fun q => q.pid == p.pid) then
    { d with projects := removeRef d.projects p.pid }
  else d

/-- `Project.add_developer`: calls `assign`, catches its `ValueError`
(printing a message), and appends the developer to the roster in every
case. -/
def Project.add_developer (p : Project) (dev : Developer) : Project × Developer :=
  let r := dev.assign p
  ({ p with developers := p.developers ++ [dev._id] }, r.1)

/-- `list.remove` on the roster: `some` shortened list when the element
occurs, `none` for the `ValueError` case (the list is left unchanged). -/
def removeId : List ℕ → ℕ → Option (List ℕ)
  | [], _ => none
  | i :: l, x => if i = x then some l else Option.map (fun l2 => i :: l2) (removeId l x)

/-- `Project.remove_developer`: first `cancel_appointment` on the
developer, then `self.developers.remove(developer)`, which raises
`ValueError` when the developer is absent from the roster.  The result
carries the post-call project and developer plus the raised error. -/
def Project.remove_developer (p : Project) (dev : Developer) :
    (Project × Developer) × Option String :=
  let d2 := dev.cancel_appointment p
  match removeId p.developers dev._id with
  | some l => (({ p with developers := l }, d2), none)
  | none => ((p, d2), some "list.remove(x): x not in list")

/-- The body of `Assignment.calculate_status` as a function of the task
dictionary: the status string it stores. -/
def statusString (l : List (String × PyTask)) : String :=
  let tasks := l.filter (fun kv => kv.2.is_done)
  if tasks.isEmpty then "0%"
  else pyDivRepr (100 * tasks.length) l.length ++ "%"

/-- `Assignment.calculate_status`: mutates `status` in place and
returns `None`. -/
def Assignment.calculate_status (a : Assignment) : Assignment :=
  { a with status := statusString a.received_tasks }

/-- `ValueError` message when a date string fails to parse. -/
def dateParseError : String := "time data does not match format"

/-- The list comprehension inside `get_tasks_to_date`: walk the
dictionary in insertion order, parse each key, keep the values whose key
is strictly earlier than `dc`; a key that fails to parse raises. -/
def tasksBefore (dc : PyDate) : List (String × PyTask) → Except String (List PyTask)
  | [] => Except.ok []
  | kv :: l =>
    match parseDate kv.1 with
    | none => Except.error dateParseError
    | some dk =>
      match tasksBefore dc l with
      | Except.ok r => Except.ok (if dateLt dk dc then kv.2 :: r else r)
      | Except.error e => Except.error e

/-- `Assignment.get_tasks_to_date`. -/
def Assignment.get_tasks_to_date (a : Assignment) (date : String) :
    Except String (List PyTask) :=
  match parseDate date with
  | none => Except.error dateParseError
  | some dc => tasksBefore dc a.received_tasks

/-- `class QAEngineer` of `src/main.py`. -/
structure QAEngineer where
  _id : ℕ
  full_name : String
  address : String
  email : String
  phone_number : String
  position : String
  salary : String
  projects : List ProjectRef
  deriving DecidableEq

/-- `QAEngineer.test_feature`. -/
def QAEngineer.test_feature (qa : QAEngineer) (a : Assignment) : String :=
  "Assignment " ++ a.description ++ " has been tested by " ++ qa.full_name

/-- `class ProjectManager` of `src/main.py`. -/
structure ProjectManager where
  _id : ℕ
  full_name : String
  address : String
  email : String
  phone_number : String
  position : String
  salary : String
  project : Project
  deriving DecidableEq

/-- The apostrophe character, as a string. -/
def apos : String := String.mk ['\x27']

/-- `ProjectManager.discuss_progress`. -/
def ProjectManager.discuss_progress (pm : ProjectManager) (dev : Developer) : String :=
  "Task" ++ apos ++ "s progress of "
    ++ String.intercalate " " (dev.assignments.map (fun a => a.description))
    ++ " has been tested by " ++ pm.full_name

/-- Whether a dictionary key parses to a date strictly before `dc`
(used to state what `get_tasks_to_date` returns). -/
def keyEarlier (k : String) (dc : PyDate) : Bool :=
  match parseDate k with
  | some dk => dateLt dk dc
  | none => false


/-!  Concrete fixtures used by the witness theorems. -/

/-- The project of the spec's scenarios: title "Website", limit 2. -/
def wProject : Project := ⟨0, "Website", "10/12/2022", [], [], 2⟩

/-- A fresh developer with no projects and no assignments. -/
def alice : Developer := ⟨0, "Alice", "addr", "a@co", "555", "Junior", "1000", [], []⟩

/-- A completed task dated in September. -/
def taskSept : PyTask := ⟨true, "september task"⟩

/-- An unfinished task dated in October. -/
def taskOct : PyTask := ⟨false, "october task"⟩

/-- An assignment with one completed task out of two. -/
def aHalf : Assignment :=
  ⟨"half done", [("09/01/2022", taskSept), ("10/01/2022", taskOct)], "", false⟩

/-- An assignment whose every task is completed. -/
def aAllDone : Assignment :=
  ⟨"all done", [("09/01/2022", ⟨true, "t1"⟩), ("09/02/2022", ⟨true, "t2"⟩)], "", false⟩

/-- A project manager referencing `wProject`. -/
def bobPM : ProjectManager := ⟨0, "Bob", "addr", "b@co", "555", "PM", "2000", wProject⟩

/-- A developer with two assignments "Fix bug" and "Write docs". -/
def carol : Developer :=
  ⟨1, "Carol", "addr", "c@co", "555", "Middle", "1500", [],
    [Assignment.new "Fix bug", Assignment.new "Write docs"]⟩

/-- A developer whose project list already holds `wProject`, while the
project's roster does not hold the developer. -/
def dave : Developer :=
  ⟨2, "Dave", "addr", "d@co", "555", "Senior", "1800", [⟨0, "Website"⟩], []⟩

/-!  Validation of the Python-semantics helpers against known CPython
outputs (`str(a / b)` and `datetime.strptime` / `datetime` ordering). -/

theorem pyDivRepr_examples :
    pyDivRepr 100 2 = "50.0" ∧ pyDivRepr 200 2 = "100.0" ∧
    pyDivRepr 100 3 = "33.333333333333336" ∧ pyDivRepr 100 7 = "14.285714285714286" ∧
    pyDivRepr 100 16 = "6.25" ∧ pyDivRepr 1000 3 = "333.3333333333333" ∧
    pyDivRepr 100 1000000 = "0.0001" ∧ pyDivRepr 100 10000000 = "1e-05" :=
  ⟨by decide, by decide, by decide, by decide, by decide, by decide, by decide, by decide⟩

theorem parseDate_examples :
    parseDate "09/30/2022" = some ⟨2022, 9, 30⟩ ∧ parseDate "9/1/2022" = some ⟨2022, 9, 1⟩ ∧
    parseDate "09/31/2022" = none ∧ parseDate "02/29/2020" = some ⟨2020, 2, 29⟩ ∧
    parseDate "02/29/2022" = none ∧ parseDate "13/01/2022" = none ∧
    parseDate "09-30-2022" = none ∧ parseDate "" = none ∧ parseDate "0000/01/01" = none :=
  ⟨by decide, by decide, by decide, by decide, by decide, by decide, by decide, by decide, by decide⟩

theorem dateLt_examples :
    dateLt ⟨2022, 9, 1⟩ ⟨2022, 9, 30⟩ = true ∧ dateLt ⟨2022, 10, 1⟩ ⟨2022, 9, 30⟩ = false :=
  ⟨by decide, by decide⟩

/-!  Helper lemmas about the list-removal and comprehension helpers. -/

theorem removeRef_append_of_not_mem (l : List ProjectRef) (r : ProjectRef) (x : ℕ)
    (h : ∀ q ∈ l, q.pid ≠ x) (hr : r.pid = x) : removeRef (l ++ [r]) x = l := by
  induction l with
  | nil => simp [removeRef, hr]
  | cons a l ih =>
    have ha : a.pid ≠ x := h a (by simp)
    simp only [List.cons_append, removeRef, ha, if_false, List.append_eq]
    rw [ih (fun q hq => h q (by simp [hq]))]

theorem removeRef_length_of_mem (l : List ProjectRef) (x : ℕ)
    (h : ∃ q ∈ l, q.pid = x) : (removeRef l x).length + 1 = l.length := by
  induction l with
  | nil => simp at h
  | cons a l ih =>
    by_cases ha : a.pid = x
    · simp [removeRef, ha]
    · obtain ⟨q, hq, hqx⟩ := h
      rcases List.mem_cons.mp hq with hq1 | hq1
      · exact absurd (hq1 ▸ hqx) ha
      · simp only [removeRef, ha, if_false, List.length_cons]
        rw [← ih ⟨q, hq1, hqx⟩]

theorem removeId_eq_none_iff (l : List ℕ) (x : ℕ) : removeId l x = none ↔ x ∉ l := by
  induction l with
  | nil => simp [removeId]
  | cons i l ih =>
    by_cases hi : i = x
    · simp [removeId, hi]
    · simp only [removeId, hi, if_false, List.mem_cons]
      cases hrec : removeId l x with
      | none =>
        have hx := ih.mp hrec
        simp [hx, Ne.symm hi]
      | some l2 =>
        have hx : x ∈ l := by
          by_contra hc
          rw [ih.mpr hc] at hrec
          exact Option.noConfusion hrec
        simp [hx]

theorem tasksBefore_eq_filter (dc : PyDate) (l : List (String × PyTask))
    (h : ∀ kv ∈ l, (parseDate kv.1).isSome) :
    tasksBefore dc l =
      Except.ok ((l.filter (fun kv => keyEarlier kv.1 dc)).map Prod.snd) := by
  induction l with
  | nil => rfl
  | cons kv l ih =>
    obtain ⟨dk, hdk⟩ := Option.isSome_iff_exists.mp (h kv (by simp))
    have ih2 := ih (fun a ha => h a (by simp [ha]))
    by_cases hlt : dateLt dk dc = true
    · simp [tasksBefore, hdk, ih2, keyEarlier, List.filter_cons, hlt]
    · simp [tasksBefore, hdk, ih2, keyEarlier, List.filter_cons, hlt]

/-!  Claim theorems. -/

/-- C1: after a successful `D.assign(P)`, `P.title` is an element of
`D.get_assigned_projects()`, and invoking `assign` again with the same
project raises the duplicate-assignment `ValueError` while leaving the
length of the developer's project list unchanged. -/
theorem assign_member_then_duplicate_rejected (d : Developer) (p : Project)
    (h : (d.assign p).2 = none) :
    p.title ∈ (d.assign p).1.get_assigned_projects ∧
    ((d.assign p).1.assign p).2 = some ("Project " ++ p.title ++ " already exists") ∧
    ((d.assign p).1.assign p).1.projects.length = (d.assign p).1.projects.length := by
  have hc : d.projects.any (fun q => q.pid == p.pid) = false := by
    cases hb : d.projects.any (fun q => q.pid == p.pid) with
    | false => rfl
    | true => simp [Developer.assign, hb] at h
  refine ⟨?_, ?_, ?_⟩
  · simp [Developer.assign, hc, Developer.get_assigned_projects, Project.ref]
  · simp [Developer.assign, hc, List.any_append, Project.ref]
  · simp [Developer.assign, hc, List.any_append, Project.ref]

theorem assign_member_then_duplicate_rejected_witness :
    (alice.assign wProject).2 = none ∧
    "Website" ∈ (alice.assign wProject).1.get_assigned_projects ∧
    ((alice.assign wProject).1.assign wProject).2 = some "Project Website already exists" ∧
    ((alice.assign wProject).1.assign wProject).1.projects.length
      = (alice.assign wProject).1.projects.length := by
  have h := assign_member_then_duplicate_rejected alice wProject (by decide)
  exact ⟨by decide, h.1, h.2.1.trans (by decide), h.2.2⟩

/-- C5: a successful `assign` followed by `cancel_appointment` of the
same project leaves the developer's list without the project, so its
title no longer appears in `get_assigned_projects()` (the title was not
already contributed by a different project — in the spec's data model a
title identifies a project). -/
theorem assign_then_cancel_removes_title (d : Developer) (p : Project)
    (h1 : (d.assign p).2 = none)
    (h2 : p.title ∉ d.get_assigned_projects) :
    p.title ∉ ((d.assign p).1.cancel_appointment p).get_assigned_projects := by
  have hc : d.projects.any (fun q => q.pid == p.pid) = false := by
    cases hb : d.projects.any (fun q => q.pid == p.pid) with
    | false => rfl
    | true => simp [Developer.assign, hb] at h1
  have hnot : ∀ q ∈ d.projects, q.pid ≠ p.pid := by
    intro q hq
    simpa using List.any_eq_false.mp hc q hq
  simp only [Developer.assign, hc, Bool.false_eq_true, if_false]
  unfold Developer.cancel_appointment
  simp only [List.any_append, Project.ref, List.any_cons, List.any_nil, beq_self_eq_true,
    Bool.or_true, Bool.true_or, Bool.or_false, if_true]
  rw [removeRef_append_of_not_mem d.projects ⟨p.pid, p.title⟩ p.pid hnot rfl]
  exact h2

theorem assign_then_cancel_removes_title_witness :
    (alice.assign wProject).2 = none ∧
    "Website" ∉ alice.get_assigned_projects ∧
    "Website" ∉ ((alice.assign wProject).1.cancel_appointment wProject).get_assigned_projects :=
  ⟨by decide, by decide, assign_then_cancel_removes_title alice wProject (by decide) (by decide)⟩

/-- C2: `Project.add_developer` appends to the roster unconditionally,
whether the inner `assign` succeeds or raises; calling it twice with the
same developer grows the roster by two while the developer's own project
list grows only by one. -/
theorem add_developer_always_appends (p : Project) (dev : Developer) :
    ((p.add_developer dev).1.developers.length = p.developers.length + 1) ∧
    ((∀ q ∈ dev.projects, q.pid ≠ p.pid) →
      ((p.add_developer dev).1.add_developer (p.add_developer dev).2).1.developers.length
          = p.developers.length + 2 ∧
      ((p.add_developer dev).1.add_developer (p.add_developer dev).2).2.projects.length
          = dev.projects.length + 1) := by
  constructor
  · simp [Project.add_developer]
  · intro h
    have hc : dev.projects.any (fun q => q.pid == p.pid) = false := by
      simp only [List.any_eq_false]
      intro q hq
      simpa using h q hq
    simp only [Project.add_developer, Developer.assign, hc, Bool.false_eq_true, if_false]
    constructor <;>
      simp [List.any_append, Project.ref, List.length_append]

theorem add_developer_always_appends_witness :
    ((wProject.add_developer alice).1.add_developer (wProject.add_developer alice).2).1.developers.length = 2 ∧
    ((wProject.add_developer alice).1.add_developer (wProject.add_developer alice).2).2.projects.length = 1 := by
  have h := (add_developer_always_appends wProject alice).2 (by decide)
  exact ⟨h.1, h.2⟩

/-- C3: `calculate_status` stores `"0%"` when the task dictionary is
empty or no task is completed, and otherwise stores the Python rendering
of `100 * done / total` (binary64 true division, full precision)
followed by `"%"`.  The update is modelled as the returned record's
`status` field. -/
theorem calculate_status_value (a : Assignment) :
    ((a.received_tasks = [] ∨ ∀ kv ∈ a.received_tasks, kv.2.is_done = false) →
      (a.calculate_status).status = "0%") ∧
    ((a.received_tasks.filter (fun kv => kv.2.is_done)) ≠ [] →
      (a.calculate_status).status =
        pyDivRepr (100 * (a.received_tasks.filter (fun kv => kv.2.is_done)).length)
          a.received_tasks.length ++ "%") := by
  constructor
  · intro h
    have hf : a.received_tasks.filter (fun kv => kv.2.is_done) = [] := by
      rcases h with h | h
      · simp [h]
      · exact List.filter_eq_nil_iff.mpr (fun kv hkv => by simp [h kv hkv])
    simp [Assignment.calculate_status, statusString, hf]
  · intro h
    have hf : (a.received_tasks.filter (fun kv => kv.2.is_done)).isEmpty = false := by
      simpa [List.isEmpty_iff] using h
    simp [Assignment.calculate_status, statusString, hf]

theorem calculate_status_value_witness :
    ((Assignment.new "t").calculate_status).status = "0%" ∧
    (aHalf.calculate_status).status = "50.0%" := by
  refine ⟨(calculate_status_value (Assignment.new "t")).1 (Or.inl rfl), ?_⟩
  exact ((calculate_status_value aHalf).2 (by decide)).trans (by decide)

/-- C10: `calculate_status` mutates only `status`: `received_tasks`,
`is_done` (and `description`) are unchanged by every call. -/
theorem calculate_status_frame (a : Assignment) :
    (a.calculate_status).received_tasks = a.received_tasks ∧
    (a.calculate_status).is_done = a.is_done ∧
    (a.calculate_status).description = a.description :=
  ⟨rfl, rfl, rfl⟩

theorem calculate_status_frame_witness :
    (aAllDone.calculate_status).is_done = false ∧
    (aAllDone.calculate_status).status = "100.0%" :=
  ⟨(calculate_status_frame aAllDone).2.1, by decide⟩

/-- C8 counterexample: immediately after construction the status field
is the empty string, not the percentage derived from `received_tasks`
(which would be `"0%"`), so the invariant does not hold at every point
of the assignment's lifetime. -/
theorem status_after_init_counterexample :
    (Assignment.new "t").status = "" ∧
    statusString (Assignment.new "t").received_tasks = "0%" ∧
    (Assignment.new "t").status ≠ statusString (Assignment.new "t").received_tasks :=
  ⟨rfl, by decide, by decide⟩

/-- C8 amended: after construction `status` is `""`; after any
`calculate_status` call it equals the percentage string computed solely
from `received_tasks` (same tasks give the same status) and ends in
`"%"`. -/
theorem status_percent_after_calculate (a b : Assignment) (desc : String) :
    (Assignment.new desc).status = "" ∧
    (a.calculate_status).status = statusString a.received_tasks ∧
    (a.received_tasks = b.received_tasks →
      (a.calculate_status).status = (b.calculate_status).status) ∧
    (∃ s, (a.calculate_status).status = s ++ "%") := by
  refine ⟨rfl, rfl, fun h => by simp [Assignment.calculate_status, h], ?_⟩
  by_cases hf : (a.received_tasks.filter (fun kv => kv.2.is_done)).isEmpty
  · exact ⟨"0", by simp [Assignment.calculate_status, statusString, hf]⟩
  · refine ⟨pyDivRepr (100 * (a.received_tasks.filter (fun kv => kv.2.is_done)).length)
      a.received_tasks.length, ?_⟩
    simp only [Bool.not_eq_true] at hf
    simp [Assignment.calculate_status, statusString, hf]

theorem status_percent_after_calculate_witness :
    ((Assignment.new "t").calculate_status).status
      = ((Assignment.new "u").calculate_status).status :=
  (status_percent_after_calculate (Assignment.new "t") (Assignment.new "u") "t").2.2.1 rfl

/-- C4: `get_tasks_to_date` raises the parse `ValueError` when its
argument does not match `%m/%d/%Y`; on a well-formed date (and with the
dictionary keys date strings, as the data model prescribes) it returns
exactly the values whose key parses strictly earlier than the argument,
in insertion order. -/
theorem get_tasks_to_date_filters (a : Assignment) (date : String) :
    (parseDate date = none → a.get_tasks_to_date date = Except.error dateParseError) ∧
    (∀ dc, parseDate date = some dc →
      (∀ kv ∈ a.received_tasks, (parseDate kv.1).isSome) →
      a.get_tasks_to_date date =
        Except.ok ((a.received_tasks.filter (fun kv => keyEarlier kv.1 dc)).map Prod.snd)) := by
  constructor
  · intro h
    simp [Assignment.get_tasks_to_date, h]
  · intro dc hdc hkeys
    simp [Assignment.get_tasks_to_date, hdc, tasksBefore_eq_filter dc a.received_tasks hkeys]

theorem get_tasks_to_date_filters_witness :
    parseDate "09/30/2022" = some ⟨2022, 9, 30⟩ ∧
    aHalf.get_tasks_to_date "09/30/2022" = Except.ok [taskSept] ∧
    aHalf.get_tasks_to_date "13/13/2022" = Except.error dateParseError := by
  have h2 := (get_tasks_to_date_filters aHalf "09/30/2022").2 ⟨2022, 9, 30⟩ (by decide) (by decide)
  have h1 := (get_tasks_to_date_filters aHalf "13/13/2022").1 (by decide)
  exact ⟨by decide, h2.trans (congrArg Except.ok (by decide)), h1⟩

/-- C6: absence is handled asymmetrically — `cancel_appointment` on an
absent project is a silent no-op, while `remove_developer` on a
developer absent from the roster raises `list.remove`'s `ValueError`
(and changes neither object here, the developer's list not holding the
project either). -/
theorem cancel_noop_remove_raises (d : Developer) (p : Project)
    (h1 : ∀ q ∈ d.projects, q.pid ≠ p.pid)
    (h2 : d._id ∉ p.developers) :
    d.cancel_appointment p = d ∧
    (p.remove_developer d).2 = some "list.remove(x): x not in list" ∧
    (p.remove_developer d).1.1 = p ∧
    (p.remove_developer d).1.2 = d := by
  have hc : d.projects.any (fun q => q.pid == p.pid) = false := by
    simp only [List.any_eq_false]
    intro q hq
    simpa using h1 q hq
  have hnone : removeId p.developers d._id = none := (removeId_eq_none_iff _ _).mpr h2
  have hcan : d.cancel_appointment p = d := by
    simp [Developer.cancel_appointment, hc]
  refine ⟨hcan, ?_, ?_, ?_⟩ <;> simp [Project.remove_developer, hcan, hnone]

theorem cancel_noop_remove_raises_witness :
    alice.cancel_appointment wProject = alice ∧
    (wProject.remove_developer alice).2 = some "list.remove(x): x not in list" ∧
    (wProject.remove_developer alice).1.1 = wProject ∧
    (wProject.remove_developer alice).1.2 = alice :=
  cancel_noop_remove_raises alice wProject (by decide) (by decide)

/-- C9: `remove_developer` is not atomic on failure — when the
developer is absent from the roster but holds the project, the project
is first removed from the developer's list (shrinking it by one) and
only then does the roster removal raise, leaving the developer changed
while the project is not. -/
theorem remove_developer_not_atomic (p : Project) (d : Developer)
    (h1 : d._id ∉ p.developers)
    (h2 : ∃ q ∈ d.projects, q.pid = p.pid) :
    (p.remove_developer d).2.isSome = true ∧
    (p.remove_developer d).1.1 = p ∧
    (p.remove_developer d).1.2.projects.length + 1 = d.projects.length ∧
    (p.remove_developer d).1.2 ≠ d := by
  have hc : d.projects.any (fun q => q.pid == p.pid) = true := by
    obtain ⟨q, hq, he⟩ := h2
    exact List.any_eq_true.mpr ⟨q, hq, by simp [he]⟩
  have hnone : removeId p.developers d._id = none := (removeId_eq_none_iff _ _).mpr h1
  have hlen : (removeRef d.projects p.pid).length + 1 = d.projects.length :=
    removeRef_length_of_mem d.projects p.pid h2
  have hcan : d.cancel_appointment p = { d with projects := removeRef d.projects p.pid } := by
    simp [Developer.cancel_appointment, hc]
  refine ⟨?_, ?_, ?_, ?_⟩
  · simp [Project.remove_developer, hcan, hnone]
  · simp [Project.remove_developer, hcan, hnone]
  · simpa [Project.remove_developer, hcan, hnone] using hlen
  · simp only [Project.remove_developer, hcan, hnone]
    intro hcontra
    have hpl := congrArg (fun x => x.projects.length) hcontra
    simp at hpl
    omega

theorem remove_developer_not_atomic_witness :
    (wProject.remove_developer dave).2.isSome = true ∧
    (wProject.remove_developer dave).1.1 = wProject ∧
    (wProject.remove_developer dave).1.2.projects.length + 1 = dave.projects.length ∧
    (wProject.remove_developer dave).1.2 ≠ dave :=
  remove_developer_not_atomic wProject dave (by decide) ⟨⟨0, "Website"⟩, by decide, rfl⟩

/-- C7: `discuss_progress` returns the summary string built from the
space-joined descriptions of all the developer's assignments, in order,
followed by the manager's name; an empty assignment list gives the
summary with an empty joined segment, not an error.  The function
mutates nothing (it is a pure function of its two arguments). -/
theorem discuss_progress_format (pm : ProjectManager) (dev : Developer) :
    pm.discuss_progress dev =
      "Task" ++ apos ++ "s progress of "
        ++ String.intercalate " " (dev.assignments.map (fun a => a.description))
        ++ " has been tested by " ++ pm.full_name ∧
    (dev.assignments = [] →
      pm.discuss_progress dev =
        "Task" ++ apos ++ "s progress of " ++ " has been tested by " ++ pm.full_name) := by
  refine ⟨rfl, fun h => ?_⟩
  rw [ProjectManager.discuss_progress, h]
  rfl

theorem discuss_progress_format_witness :
    bobPM.discuss_progress carol =
      "Task" ++ apos ++ "s progress of Fix bug Write docs has been tested by Bob" ∧
    bobPM.discuss_progress alice =
      "Task" ++ apos ++ "s progress of " ++ " has been tested by Bob" := by
  refine ⟨((discuss_progress_format bobPM carol).1).trans (by decide), ?_⟩
  exact ((discuss_progress_format bobPM alice).2 rfl).trans (by decide)
